import Mathlib

/-!
Shallow embedding of the Play-Store lead-scraper bot (`src/main.py`) and
verification of the specification claims about it.

Conventions of the embedding:
* Python strings are modelled as Lean `String` (logically a `List Char`);
  ASCII semantics are used for case folding, whitespace and digits.
* External effects (HTTP calls to the term-expansion provider, Play-Store
  search and detail lookups, DNS MX resolution, the Firebase store contents
  at the start of a run) are supplied as function-valued oracles; a `none`
  result stands for any exception or falsy result at that call site.
* The per-task cancellation flag `context.user_data['stop_signal']` is
  read-only inside the crawl loop; it is modelled as a function
  `sig : Nat → Bool` giving the value observed by the n-th checkpoint read
  of the run.  The crawl code itself never writes the flag, so any
  monotonicity of `sig` is a property of the environment, stated as a
  hypothesis where needed.
* Pure I/O that does not influence control flow or recorded state
  (progress-message edits, the 0.5 s sleep, CSV rendering, the `date`
  timestamp field of a stored lead) is omitted.
-/

namespace EmailPro

/-! ## Generic Python-style string helpers -/

/-- Truthiness of the `active_by_id` register (`None` and `""` are falsy). -/
def pyTruthy : Option String → Bool
  | none => false
  | some s => !(s == "")

/-- The Python comparison `session_stats['active_by_id'] != uid`
(`None != uid` is `True`). -/
def pyNeqStr : Option String → String → Bool
  | none, _ => true
  | some s, u => !(s == u)

/-- ASCII model of the whitespace class stripped by Python `str.strip()`:
space and the control characters `\t`, `\n`, `\v`, `\f`, `\r`. -/
def pySpace (c : Char) : Bool :=
  c == ' ' || (decide (9 ≤ c.toNat) && decide (c.toNat ≤ 13))

/-- `str.strip()`: drop leading and trailing whitespace. -/
def pyStrip (l : List Char) : List Char :=
  ((l.dropWhile pySpace).reverse.dropWhile pySpace).reverse

def stringStrip (s : String) : String := ⟨pyStrip s.data⟩

/-- `str.lower()` (ASCII model). -/
def stringLower (s : String) : String := ⟨s.data.map Char.toLower⟩

/-- `str.split(',')` — the same segments Python produces, including empty
ones and the single empty segment for the empty string. -/
def splitComma : List Char → List (List Char)
  | [] => [[]]
  | c :: rest =>
    let r := splitComma rest
    if c = ',' then [] :: r
    else
      match r with
      | h :: t => (c :: h) :: t
      | [] => [[c]]

/-- Boolean membership of a `Char` in a list. -/
def charListHas : List Char → Char → Bool
  | [], _ => false
  | c :: rest, t => c == t || charListHas rest t

/-- Boolean membership of a `String` in a list. -/
def strListHas : List String → String → Bool
  | [], _ => false
  | s :: rest, t => s == t || strListHas rest t

/-- Does `s` start with `pat`? -/
def listStartsWith : List Char → List Char → Bool
  | [], _ => true
  | _ :: _, [] => false
  | p :: ps, c :: cs => p == c && listStartsWith ps cs

/-- The Python substring test `pat in s`. -/
def containsSub (pat : List Char) : List Char → Bool
  | [] => listStartsWith pat []
  | c :: rest => listStartsWith pat (c :: rest) || containsSub pat rest

/-! ## `parse_installs` (src/main.py lines 80-85) -/

/-- Value of a decimal digit string, most significant digit first. -/
def decimalVal (l : List Char) : Nat :=
  l.foldl (fun acc c => 10 * acc + (c.toNat - 48)) 0

/-- `parse_installs`: `if not install_str: return 0`, then strip every
non-digit character (`re.sub(r'[^\d]', '', …)`) and read the remainder as a
decimal number, `0` when nothing is left.  `none` models a `None` argument. -/
def parse_installs : Option String → Nat
  | none => 0
  | some s =>
    if s = "" then 0
    else
      let clean := s.data.filter Char.isDigit
      if clean = [] then 0 else decimalVal clean

/-- Specification-side restatement of the install parser: the number formed
by concatenating, in order, the decimal digit characters of the input
(`0` for `None` or digit-free input). -/
def installsSpec : Option String → Nat
  | none => 0
  | some s => decimalVal (s.data.filter Char.isDigit)

/-! ## `validate_email` (src/main.py lines 87-95) -/

/-- Model of `re.match(r"[^@]+@[^@]+\.[^@]+", email)`: the string must begin
with a non-empty run of non-`@` characters followed by `'@'` (so the run ends
at the first `'@'`); after that `'@'` the pattern needs a non-empty `@`-free
segment, a `'.'`, and one further non-`@` character (anything may follow,
since `re.match` only anchors the start).  Backtracking over the choice of
the `'.'` means: some `'.'` strictly inside the `@`-free block that follows
the first `'@'`, not in its last position, must exist. -/
def emailFormatOk (s : List Char) : Bool :=
  let a := s.takeWhile (fun c => !(c == '@'))
  if a.isEmpty then false
  else if a.length == s.length then false
  else
    let r1 := (s.drop (a.length + 1)).takeWhile (fun c => !(c == '@'))
    charListHas ((r1.drop 1).dropLast) '.'

/-- `email.split('@')[-1]`: the suffix after the last `'@'` (the whole
string when no `'@'` occurs). -/
def domainOf (email : String) : String :=
  ⟨(email.data.reverse.takeWhile (fun c => !(c == '@'))).reverse⟩

/-- `validate_email` with the DNS MX resolution supplied as the oracle
`mx` (covering `dns.resolver.resolve`, the truthiness of its answer and the
`except: return False` around it). -/
def validate_email (mx : String → Bool) (email : String) : Bool :=
  if email == "" then false
  else if emailFormatOk email.data then mx (domainOf email)
  else false

/-! ## Dedup key (src/main.py line 194) -/

/-- `email.replace('.', '_')` — single-character pattern, so a plain map. -/
def replaceDotChar (c : Char) : Char := if c = '.' then '_' else c

/-- `….replace('@', '_at_')` — single-character pattern, each `'@'` expands
to the four characters `_at_`. -/
def replaceAtList : List Char → List Char
  | [] => []
  | c :: rest =>
    if c = '@' then '_' :: 'a' :: 't' :: '_' :: replaceAtList rest
    else c :: replaceAtList rest

/-- `safe_key = email.replace('.', '_').replace('@', '_at_')`. -/
def safe_key (email : String) : String :=
  ⟨replaceAtList (email.data.map replaceDotChar)⟩

/-! ## Keyword expansion (src/main.py lines 103-122) -/

/-- The list comprehension
`[k.strip() for k in res.split(',') if k.strip()][:50]` applied to a
provider response body. -/
def parseCSVKeywords (res : String) : List String :=
  ((((splitComma res.data).map pyStrip).filter (fun t => !t.isEmpty)).take 50).map
    (fun t => (⟨t⟩ : String))

/-- The key loop of `get_expanded_keywords`.  `attempt k` is the outcome of
the single HTTP attempt made with key `k` and the fixed model
`"llama-3.3-70b-versatile"`: `some res` for a 200 response whose body parses
to content `res`, `none` for any failure (non-200 status, timeout, transport
error, malformed JSON — the bare `except: continue` makes them all alike).
The first component records, in order, the keys actually attempted; the
second is the returned keyword list ( `[base_kw]` after exhausting all
keys). -/
def groqLoop (attempt : String → Option String) (base_kw : String) :
    List String → List String × List String
  | [] => ([], [base_kw])
  | k :: rest =>
    match attempt k with
    | some res => ([k], parseCSVKeywords res)
    | none =>
      let r := groqLoop attempt base_kw rest
      (k :: r.1, r.2)

/-- `get_expanded_keywords`: returns `[base_kw]` when no keys are
configured, otherwise runs the key loop. -/
def get_expanded_keywords (keys : List String) (attempt : String → Option String)
    (base_kw : String) : List String :=
  if keys = [] then [base_kw] else (groqLoop attempt base_kw keys).2

/-! ## Global session state and the chat handlers
(src/main.py lines 51-57, 289-416) -/

/-- The mutable `session_stats` dict (the `start_time` field is a wall-clock
timestamp and is omitted). -/
structure SessionStats where
  total_leads : Nat
  status : String
  active_by_id : Option String
  active_by_name : Option String
deriving DecidableEq

/-- Outcome of a text-message start request in `message_handler`. -/
inductive StartReply
  /-- the "System Busy! Admin … is currently running a task" reply -/
  | busyOther
  /-- the "You already have a task running! Press STOP first." reply -/
  | busySelf
  /-- `asyncio.create_task(scrape_task(...))` is issued -/
  | taskCreated
deriving DecidableEq

/-- `message_handler` (lines 395-416) for an admin sender: the busy check
fires when the status is neither `"Idle"` nor contains `"Stopped"`; within
it the reply depends on whether the sender is the recorded active admin.
No state is written on any of its paths; the accepted path schedules
`scrape_task`. -/
def message_handler (st : SessionStats) (uid : String) : StartReply :=
  if !(st.status == "Idle") && !(containsSub "Stopped".data st.status.data) then
    if pyNeqStr st.active_by_id uid then StartReply.busyOther else StartReply.busySelf
  else StartReply.taskCreated

/-- Outcome of the `auto_s` callback button in `cb_handler`. -/
inductive AutoReply
  /-- the "Busy! Admin … is currently running a task" reply, nothing else -/
  | busyOther
  /-- `c.user_data['stop_signal'] = False` followed by `execute_auto_search`
  (which starts a new `scrape_task`) -/
  | proceeds
deriving DecidableEq

/-- `cb_handler`, `auto_s` branch (lines 362-370): rejected only when the
status is not `"Idle"` *and* the recorded active id differs from the caller;
otherwise the stop flag is cleared and auto search starts.  The returned
`Bool` is the stop flag after the handler (`stop0` is its prior value). -/
def cb_handler_auto (st : SessionStats) (stop0 : Bool) (uid : String) :
    AutoReply × Bool :=
  if !(st.status == "Idle") && pyNeqStr st.active_by_id uid then
    (AutoReply.busyOther, stop0)
  else (AutoReply.proceeds, false)

/-- Outcome of the `stop_loop` callback button in `cb_handler`. -/
inductive StopReply
  /-- the "This task was started by …. Only they can stop it." reply -/
  | notOwnerReject
  /-- the "Process Forcefully Stopped." reply -/
  | stoppedOk
deriving DecidableEq

/-- Everything the `stop_loop` branch touches: its reply, the
`session_stats` register, the caller's stop flag, and whether
`active_tasks[uid].cancel()` was invoked. -/
structure StopEffect where
  reply : StopReply
  stats : SessionStats
  stop_signal : Bool
  cancelledTask : Bool
deriving DecidableEq

/-- `cb_handler`, `stop_loop` branch (lines 372-384).  The guard is the
Python test `session_stats['active_by_id'] and session_stats['active_by_id']
!= uid` (truthiness of the register, then string inequality).  When it
fails — including when no task is recorded at all — the handler sets the
stop flag, cancels the caller's task if one is registered (`hasTask`), sets
the status to `"Stopped"` and clears `active_by_id` (but not
`active_by_name`), and reports success. -/
def cb_handler_stop (st : SessionStats) (stop0 : Bool) (uid : String)
    (hasTask : Bool) : StopEffect :=
  if pyTruthy st.active_by_id && pyNeqStr st.active_by_id uid then
    { reply := StopReply.notOwnerReject, stats := st, stop_signal := stop0,
      cancelledTask := false }
  else
    { reply := StopReply.stoppedOk,
      stats := { st with status := "Stopped", active_by_id := none },
      stop_signal := true, cancelledTask := hasTask }

/-! ## `scrape_task` lifecycle of the busy state
(src/main.py lines 125-244) -/

/-- Lines 128-132: on entry `scrape_task` marks the session busy. -/
def scrape_task_begin (st : SessionStats) (uid user_name base_kw : String) :
    SessionStats :=
  { st with
    status := "Running: " ++ base_kw,
    active_by_id := some uid,
    active_by_name := some user_name }

/-- How a `scrape_task` invocation terminates. -/
inductive ExitPath
  /-- the crawl loop returns (by keyword exhaustion or by the stop flag) and
  the post-loop code (CSV delivery) raises nothing the `except` must catch
  before the reset at lines 217-220 runs;  delivery failures raised *after*
  that reset land in `errInLoop` with the reset already applied, giving the
  same final state as `normal` -/
  | normal
  /-- an `Exception` inside the `try` body before the reset at lines
  217-220, handled at lines 236-240 -/
  | errInLoop
  /-- an exception before the `try` block, e.g. at the unguarded
  `edit_message_text` on line 154: no handler runs and no reset happens -/
  | errBeforeLoop
  /-- `asyncio.CancelledError` from `active_tasks[uid].cancel()`: not an
  `Exception`, so it skips the handler (and the resets) entirely -/
  | forceCancelled
deriving DecidableEq

/-- The `session_stats` register when `scrape_task` finishes, for each exit
path.  The `try`-exit at lines 217-220 clears status and both admin fields;
the `except` branch at lines 238-240 sets `status = "Idle"` and
`active_by_id = None` but leaves `active_by_name` untouched; the remaining
paths perform no reset at all.  (`total_leads` increments performed by the
crawl loop itself are accounted in `CrawlSt` below.) -/
def scrape_task_final (st : SessionStats) (uid user_name base_kw : String) :
    ExitPath → SessionStats
  | ExitPath.normal =>
    { (scrape_task_begin st uid user_name base_kw) with
      status := "Idle", active_by_id := none, active_by_name := none }
  | ExitPath.errInLoop =>
    { (scrape_task_begin st uid user_name base_kw) with
      status := "Idle", active_by_id := none }
  | ExitPath.errBeforeLoop => scrape_task_begin st uid user_name base_kw
  | ExitPath.forceCancelled => scrape_task_begin st uid user_name base_kw

/-! ## The crawl loop of `scrape_task` (src/main.py lines 149-216) -/

/-- A Play-Store search result; the loop reads only its `appId` field. -/
structure SearchItem where
  appId : String
deriving DecidableEq

/-- The fields of an `app_details` result the loop reads.  Each field is
`Option`-valued mirroring `dict.get`; the call sites apply the defaults the
source uses (`'0'`, `''`, `'N/A'`). -/
structure AppDetail where
  title : Option String
  installs : Option String
  developerEmail : Option String
  developerPhone : Option String
  developerWebsite : Option String
deriving DecidableEq

/-- One accepted output record (line 197-207; the `date` timestamp field
is wall-clock and omitted). -/
structure Lead where
  app_name : Option String
  app_id : String
  email : String
  phone : String
  website : String
  installs : Option String
  country : String
  keyword : String
deriving DecidableEq

/-- The external collaborators of one crawl run. -/
structure CrawlEnv where
  /-- `play_search kw country`: `none` for an exception, `some []` for an
  empty result list (both lead to `continue`). -/
  search : String → String → Option (List SearchItem)
  /-- `app_details app_id country`: `none` for an exception or falsy app. -/
  details : String → String → Option AppDetail
  /-- DNS MX reachability of a domain, as used by `validate_email`. -/
  mx : String → Bool
  /-- contents of the `scraped_emails` store when the run starts:
  `store0 key` is the truthiness of `ref.child(key).get()` before this run
  wrote anything. -/
  store0 : String → Bool

/-- The per-run mutable state threaded through the loops. -/
structure CrawlSt where
  /-- number of stop-flag checkpoint reads performed so far -/
  reads : Nat
  /-- `leads` accumulator -/
  leads : List Lead
  /-- keys this run has written to the store (`ref.child(key).set(...)`) -/
  written : List String
  /-- detail-fetch log: for every `app_details` call issued, the index of
  the checkpoint read that guarded it and the `appId` fetched -/
  fetches : List (Nat × String)
  /-- `session_stats['total_leads']` increments performed by this run -/
  total_leads : Nat
deriving DecidableEq

/-- `app.get('developerEmail', '').lower().strip()` (line 188). -/
def normEmail (app : AppDetail) : String :=
  stringStrip (stringLower (app.developerEmail.getD ""))

/-- The acceptance gate of lines 185-189, folding the two `continue`s:
reject when the parsed install count reaches `10000`, otherwise accept
exactly when `validate_email` passes on the normalized developer email. -/
def accept_item (mx : String → Bool) (app : AppDetail) : Bool :=
  if 10000 ≤ parse_installs (some (app.installs.getD "0")) then false
  else validate_email mx (normEmail app)

/-- The record appended to `leads` and written to the store (lines
197-207). -/
def mkLead (kw country : String) (r : SearchItem) (app : AppDetail)
    (email : String) : Lead :=
  { app_name := app.title,
    app_id := r.appId,
    email := email,
    phone := app.developerPhone.getD "N/A",
    website := app.developerWebsite.getD "N/A",
    installs := app.installs,
    country := country,
    keyword := kw }

/-- Truthiness of `ref.child(key).get()` during the run: the key was in the
store at run start or was written earlier in this run. -/
def storeHas (env : CrawlEnv) (st : CrawlSt) (key : String) : Bool :=
  env.store0 key || strListHas st.written key

/-- The body of the innermost loop for one search result `r`, entered after
its stop-flag checkpoint read returned `False` (lines 179-214): log and
issue the detail fetch, then apply the install/email gate, the store dedup
check, and on success store and accumulate the lead. -/
def processItem (env : CrawlEnv) (kw country : String) (r : SearchItem)
    (st : CrawlSt) : CrawlSt :=
  let st1 : CrawlSt :=
    { st with
      reads := st.reads + 1,
      fetches := st.fetches ++ [(st.reads, r.appId)] }
  match env.details r.appId country with
  | none => st1
  | some app =>
    if accept_item env.mx app = false then st1
    else
      let email := normEmail app
      let key := safe_key email
      if storeHas env st1 key then st1
      else
        { st1 with
          leads := st1.leads ++ [mkLead kw country r app email],
          written := st1.written ++ [key],
          total_leads := st1.total_leads + 1 }

/-- `for r in results:` (lines 177-214) — each iteration reads the stop
flag; a `True` read breaks out of this loop only. -/
def procItems (sig : Nat → Bool) (env : CrawlEnv) (kw country : String) :
    List SearchItem → CrawlSt → CrawlSt
  | [], st => st
  | r :: rest, st =>
    if sig st.reads then { st with reads := st.reads + 1 }
    else procItems sig env kw country rest (processItem env kw country r st)

/-- `for country in countries:` (lines 169-215) — each iteration reads the
stop flag (a `True` read breaks this loop), then performs the search for
`(kw, country)`; an exception or empty result skips the pair. -/
def procCountries (sig : Nat → Bool) (env : CrawlEnv) (kw : String) :
    List String → CrawlSt → CrawlSt
  | [], st => st
  | c :: rest, st =>
    if sig st.reads then { st with reads := st.reads + 1 }
    else
      let st1 : CrawlSt := { st with reads := st.reads + 1 }
      match env.search kw c with
      | none => procCountries sig env kw rest st1
      | some results =>
        if results = [] then procCountries sig env kw rest st1
        else procCountries sig env kw rest (procItems sig env kw c results st1)

/-- `countries = ['us', 'gb', 'ca', 'au', 'in']` (line 156). -/
def countries : List String := ["us", "gb", "ca", "au", "in"]

/-- `for kw_idx, kw in enumerate(keywords):` (lines 159-215) — each
iteration reads the stop flag; a `True` read breaks the outer loop and
falls through to the post-loop delivery code. -/
def procKeywords (sig : Nat → Bool) (env : CrawlEnv) :
    List String → CrawlSt → CrawlSt
  | [], st => st
  | kw :: rest, st =>
    if sig st.reads then { st with reads := st.reads + 1 }
    else
      procKeywords sig env rest
        (procCountries sig env kw countries { st with reads := st.reads + 1 })

/-- One whole crawl loop over the expanded keyword list, from the empty
per-run state.  On every path it terminates returning the accumulated
`leads` batch (the run itself raises nothing; the stop flag only breaks the
loops). -/
def scrape_run (sig : Nat → Bool) (env : CrawlEnv) (kws : List String) :
    CrawlSt :=
  procKeywords sig env kws { reads := 0, leads := [], written := [], fetches := [], total_leads := 0 }

/-! ## Concrete fixtures used by closed witness and counterexample
statements -/

/-- A stop flag that is set from the third checkpoint read onwards. -/
def wSig (n : Nat) : Bool := decide (3 ≤ n)

/-- A stop flag that is never set. -/
def sigOff (_ : Nat) : Bool := false

/-- Environment for the cancellation witness: one hit in `us`, nothing
elsewhere, every detail fetch fails. -/
def wEnv : CrawlEnv :=
  { search := fun _ c => if c == "us" then some [⟨"a"⟩] else some [],
    details := fun _ _ => none,
    mx := fun _ => false,
    store0 := fun _ => false }

/-- Environment in which every `(keyword, country)` search returns the same
single app and every detail fetch fails. -/
def dupEnv : CrawlEnv :=
  { search := fun _ _ => some [⟨"app1"⟩],
    details := fun _ _ => none,
    mx := fun _ => false,
    store0 := fun _ => false }

/-- An MX oracle that accepts every domain. -/
def mxAll (_ : String) : Bool := true

/-- A provider-attempt oracle in which every key fails. -/
def noAttempt (_ : String) : Option String := none

/-- A provider-attempt oracle in which key `"k1"` fails (e.g. a non-2xx
response) and key `"k2"` succeeds with body `"x"`. -/
def c9attempt (k : String) : Option String :=
  if k == "k2" then some "x" else none

/-- A provider-attempt oracle answering `"a, a"` on every key. -/
def dupAttempt (_ : String) : Option String := some "a, a"

/-- A detail fixture whose install string parses to exactly the `10000`
ceiling and whose email would otherwise pass every check. -/
def ceilApp : AppDetail :=
  { title := none,
    installs := some "10,000+",
    developerEmail := some "dev@maker.io",
    developerPhone := none,
    developerWebsite := none }

/-- The same fixture one install below the ceiling. -/
def belowApp : AppDetail :=
  { ceilApp with installs := some "9,999" }

/-- A busy `session_stats` register owned by admin id `"7"`. -/
def busyStats : SessionStats :=
  { total_leads := 0,
    status := "Running: x",
    active_by_id := some "7",
    active_by_name := some "A" }

/-- A busy `session_stats` register owned by admin id `"9"`. -/
def busyStats9 : SessionStats :=
  { busyStats with active_by_id := some "9", active_by_name := some "B" }

/-- The idle `session_stats` register. -/
def idleStats : SessionStats :=
  { total_leads := 0,
    status := "Idle",
    active_by_id := none,
    active_by_name := none }

/-- Every logged detail fetch of a state was guarded by a `False` read. -/
def FetchGuard (sig : Nat → Bool) (st : CrawlSt) : Prop :=
  ∀ p ∈ st.fetches, sig p.1 = false

/-- Run-state invariant for store-level dedup: the keys of the accumulated
leads are pairwise distinct, and each was written to the store by this
run. -/
def LeadKeysInv (st : CrawlSt) : Prop :=
  ((st.leads.map (fun l => safe_key l.email)).Nodup) ∧
  ∀ l ∈ st.leads, strListHas st.written (safe_key l.email) = true

/-! # Theorems -/

/-! ## Generic helper lemmas -/

theorem strListHas_append (L : List String) (k s : String) :
    strListHas (L ++ [k]) s = (strListHas L s || k == s) := by
  induction L with
  | nil => simp [strListHas]
  | cons a as ih => simp [strListHas, ih, Bool.or_assoc]

theorem strListHas_iff_mem (L : List String) (s : String) :
    strListHas L s = true ↔ s ∈ L := by
  induction L with
  | nil => simp [strListHas]
  | cons a as ih =>
    simp only [strListHas, Bool.or_eq_true, beq_iff_eq, ih, List.mem_cons]
    exact or_congr_left eq_comm

theorem head_append_of_head (xs ys : List Char) (h : Char)
    (hh : xs.head? = some h) : (xs ++ ys).head? = some h := by
  cases xs with
  | nil => simp at hh
  | cons a as => simpa using hh

theorem dropWhile_head_not (p : Char → Bool) (l : List Char) (h : Char)
    (hh : (l.dropWhile p).head? = some h) : p h = false := by
  induction l with
  | nil => simp [List.dropWhile] at hh
  | cons c cs ih =>
    by_cases hp : p c = true
    · rw [List.dropWhile_cons, if_pos hp] at hh
      exact ih hh
    · rw [List.dropWhile_cons, if_neg hp] at hh
      simp only [List.head?_cons, Option.some.injEq] at hh
      subst hh
      exact Bool.not_eq_true _ ▸ (eq_false_of_ne_true hp)

theorem dropWhile_exists_pre (p : Char → Bool) (l : List Char) :
    ∃ t, t ++ l.dropWhile p = l := by
  induction l with
  | nil => exact ⟨[], rfl⟩
  | cons c cs ih =>
    by_cases hp : p c = true
    · obtain ⟨t, ht⟩ := ih
      exact ⟨c :: t, by rw [List.dropWhile_cons, if_pos hp]; simpa using ht⟩
    · exact ⟨[], by rw [List.dropWhile_cons, if_neg hp]; rfl⟩

theorem pyStrip_head_not_space (l : List Char) (h : Char)
    (hh : (pyStrip l).head? = some h) : pySpace h = false := by
  unfold pyStrip at hh
  obtain ⟨t, ht⟩ := dropWhile_exists_pre pySpace (l.dropWhile pySpace).reverse
  have hr : ((l.dropWhile pySpace).reverse.dropWhile pySpace).reverse ++ t.reverse =
      l.dropWhile pySpace := by
    have := congrArg List.reverse ht
    simpa using this
  have hrh : (l.dropWhile pySpace).head? = some h := by
    rw [← hr]
    exact head_append_of_head _ _ h hh
  exact dropWhile_head_not pySpace l h hrh

theorem pyStrip_last_not_space (l : List Char) (h : Char)
    (hh : (pyStrip l).getLast? = some h) : pySpace h = false := by
  unfold pyStrip at hh
  rw [List.getLast?_reverse] at hh
  exact dropWhile_head_not pySpace _ h hh

/-! ## Claim C10 -/

/-- Claim C10: `parse_installs` is total (it is a plain `Nat`-valued
function of the embedding, with the bare `except` of the source folded into
the arithmetic being exception-free), agrees everywhere with the
specification reading — the number formed by concatenating, in order, the
decimal digit characters of the input — and in particular maps `'1,000+'`
to `1000` and `None`, the empty string, and digit-free strings to `0`. -/
theorem parse_installs_spec :
    (∀ s : Option String, parse_installs s = installsSpec s) ∧
    parse_installs (some "1,000+") = 1000 ∧
    parse_installs none = 0 ∧
    parse_installs (some "") = 0 ∧
    parse_installs (some "no+digits") = 0 := by
  refine ⟨?_, by decide, rfl, by decide, by decide⟩
  intro s
  match s with
  | none => rfl
  | some s =>
    by_cases h : s = ""
    · subst h; decide
    · simp only [parse_installs, installsSpec, if_neg h]
      by_cases hc : s.data.filter Char.isDigit = []
      · simp [hc, decimalVal]
      · simp [hc]

/-! ## Claim C6 -/

/-- Claim C6: the acceptance gate accepts a fetched detail iff the parsed
install count is strictly below the `10000` ceiling and the normalized
developer email is non-empty, matches the format regex, and its domain
passes the MX reachability oracle; boundary fixtures at the ceiling and one
unit below are rejected and accepted respectively. -/
theorem accept_item_characterization :
    (∀ (mx : String → Bool) (app : AppDetail),
      accept_item mx app = true ↔
        parse_installs (some (app.installs.getD "0")) < 10000 ∧
        normEmail app ≠ "" ∧
        emailFormatOk (normEmail app).data = true ∧
        mx (domainOf (normEmail app)) = true) ∧
    accept_item mxAll ceilApp = false ∧
    accept_item mxAll belowApp = true := by
  refine ⟨?_, by decide, by decide⟩
  intro mx app
  simp only [accept_item, validate_email]
  by_cases h1 : 10000 ≤ parse_installs (some (app.installs.getD "0"))
  · rw [if_pos h1]
    simp only [Bool.false_eq_true, false_iff, not_and]
    intro hlt
    omega
  · rw [if_neg h1]
    have hlt : parse_installs (some (app.installs.getD "0")) < 10000 :=
      Nat.lt_of_not_le h1
    by_cases h2 : (normEmail app == "") = true
    · rw [if_pos h2]
      have he : normEmail app = "" := eq_of_beq h2
      simp only [Bool.false_eq_true, false_iff, not_and]
      intro _ hne
      exact absurd he hne
    · rw [if_neg h2]
      have hne : normEmail app ≠ "" := by
        intro he
        exact h2 (by simp [he])
      by_cases h3 : emailFormatOk (normEmail app).data = true
      · rw [if_pos h3]
        simp [hlt, hne, h3]
      · rw [if_neg h3]
        simp only [Bool.false_eq_true, false_iff, not_and]
        intro _ _ hfmt
        exact absurd hfmt h3

/-- Witness for the C6 characterization, applying it to the below-ceiling
fixture. -/
theorem accept_item_characterization_witness :
    accept_item mxAll belowApp = true :=
  (accept_item_characterization.1 mxAll belowApp).mpr
    ⟨by decide, by decide, by decide, by decide⟩

/-! ## Claim C7 -/

theorem map_replaceDot_no_dot (l : List Char) :
    charListHas (l.map replaceDotChar) '.' = false := by
  induction l with
  | nil => rfl
  | cons c cs ih =>
    simp only [List.map_cons, charListHas, ih, Bool.or_false]
    unfold replaceDotChar
    by_cases h : c = '.'
    · rw [if_pos h]; decide
    · rw [if_neg h]
      exact beq_eq_false_iff_ne.mpr h

theorem replaceAt_no_dot (l : List Char) (h : charListHas l '.' = false) :
    charListHas (replaceAtList l) '.' = false := by
  induction l with
  | nil => rfl
  | cons c cs ih =>
    simp only [charListHas, Bool.or_eq_false_iff] at h
    simp only [replaceAtList]
    by_cases hc : c = '@'
    · rw [if_pos hc]
      simp [charListHas, ih h.2]
    · rw [if_neg hc]
      simp [charListHas, h.1, ih h.2]

theorem replaceAt_no_at (l : List Char) :
    charListHas (replaceAtList l) '@' = false := by
  induction l with
  | nil => rfl
  | cons c cs ih =>
    simp only [replaceAtList]
    by_cases hc : c = '@'
    · rw [if_pos hc]
      simp [charListHas, ih]
    · rw [if_neg hc]
      simp [charListHas, ih, beq_eq_false_iff_ne.mpr hc]

/-- Claim C7 counterexample: the dedup-key transform is not injective, even
on identifiers that pass the email format check — the two distinct emails
`a@b.at.c.d` and `a.at.b@c.d` share the key `a_at_b_at_c_d`, so the
original identifier cannot be recovered from the key. -/
theorem safe_key_collision :
    safe_key "a@b.at.c.d" = safe_key "a.at.b@c.d" ∧
    ("a@b.at.c.d" : String) ≠ "a.at.b@c.d" ∧
    emailFormatOk "a@b.at.c.d".data = true ∧
    emailFormatOk "a.at.b@c.d".data = true := by decide

/-- Claim C7 (amended): the transform does make keys storage-safe — the
produced key never contains `'.'` or `'@'` — but it is a lossy substitution,
not a reversible one: distinct format-valid emails can map to the same
dedup key. -/
theorem safe_key_amended :
    (∀ e : String, charListHas (safe_key e).data '.' = false ∧
      charListHas (safe_key e).data '@' = false) ∧
    (∃ e1 e2 : String, e1 ≠ e2 ∧ emailFormatOk e1.data = true ∧
      emailFormatOk e2.data = true ∧ safe_key e1 = safe_key e2) := by
  refine ⟨fun e => ⟨?_, ?_⟩,
    "a@b.at.c.d", "a.at.b@c.d", by decide, by decide, by decide, by decide⟩
  · exact replaceAt_no_dot _ (map_replaceDot_no_dot e.data)
  · exact replaceAt_no_at _

/-! ## Claim C9 -/

/-- Claim C9 counterexample: the source uses one fixed model per key and a
bare `except: continue`, so a non-rate-limit failure on key `k1` (here: the
oracle failure standing for a non-2xx response) is followed immediately by
an attempt under the *next key* `k2` — not by another model under `k1` —
and `k2`'s parse is returned. -/
theorem non_ratelimit_failure_advances_key :
    (groqLoop c9attempt "s" ["k1", "k2"]).1 = ["k1", "k2"] ∧
    (groqLoop c9attempt "s" ["k1", "k2"]).2 = ["x"] := by decide

/-- Claim C9 (amended): the expansion loop makes exactly one attempt per
key (with the single hardcoded model) and *any* failure — rate limit,
timeout, non-2xx, malformed response, all indistinguishable to the bare
`except` — advances to the next key: the attempted keys are precisely the
failing prefix of the key list followed by the first succeeding key, if
any. -/
theorem groq_rotation_amended (attempt : String → Option String) (kw : String)
    (keys : List String) :
    (groqLoop attempt kw keys).1 =
      keys.takeWhile (fun k => (attempt k).isNone) ++
        (keys.dropWhile (fun k => (attempt k).isNone)).take 1 := by
  induction keys with
  | nil => rfl
  | cons k rest ih =>
    cases h : attempt k with
    | some res =>
      simp [groqLoop, h, List.takeWhile_cons, List.dropWhile_cons]
    | none =>
      simp [groqLoop, h, List.takeWhile_cons, List.dropWhile_cons, ih]

/-! ## Claim C5 -/

/-- Claim C5 counterexample: a stop request while *no* task is running does
not fail with a distinct idle error — it reports the usual success, sets
the status register to `"Stopped"` and raises the stop flag (side
effects). -/
theorem stop_when_idle_reports_success :
    (cb_handler_stop idleStats false "7" false).reply = StopReply.stoppedOk ∧
    (cb_handler_stop idleStats false "7" false).stats.status = "Stopped" ∧
    (cb_handler_stop idleStats false "7" false).stop_signal = true := by decide

/-- Claim C5 (amended): a stop request by a non-owner (while an owner is
recorded) is rejected with the owner-mismatch reply and no side effects; in
every other case — matching owner *or no recorded owner at all, including
the idle state* — the handler raises the stop flag, cancels the caller's
registered task, sets the status to `"Stopped"`, clears `active_by_id`
(leaving `active_by_name`), and reports success; there is no idle error.
Repeating a stop reproduces the same register state (idempotent
success). -/
theorem stop_amended (st : SessionStats) (stop0 : Bool) (uid : String)
    (hasTask : Bool) :
    (∀ owner, st.active_by_id = some owner → owner ≠ "" → owner ≠ uid →
      cb_handler_stop st stop0 uid hasTask =
        { reply := StopReply.notOwnerReject, stats := st, stop_signal := stop0,
          cancelledTask := false }) ∧
    (st.active_by_id = none ∨ st.active_by_id = some uid →
      cb_handler_stop st stop0 uid hasTask =
        { reply := StopReply.stoppedOk,
          stats := { st with status := "Stopped", active_by_id := none },
          stop_signal := true, cancelledTask := hasTask }) ∧
    (cb_handler_stop { st with status := "Stopped", active_by_id := none }
        stop0 uid hasTask).stats =
      { st with status := "Stopped", active_by_id := none } := by
  refine ⟨?_, ?_, ?_⟩
  · intro owner ho hne hnu
    simp [cb_handler_stop, ho, pyTruthy, pyNeqStr,
      beq_eq_false_iff_ne.mpr hne, beq_eq_false_iff_ne.mpr hnu]
  · intro hcase
    rcases hcase with h | h
    · simp [cb_handler_stop, h, pyTruthy]
    · simp [cb_handler_stop, h, pyTruthy, pyNeqStr]
  · rfl

/-- Witness for the amended C5 theorem: a non-owner stop against a task
recorded for admin `"9"` is rejected without side effects. -/
theorem stop_amended_witness :
    cb_handler_stop busyStats9 false "7" true =
      { reply := StopReply.notOwnerReject, stats := busyStats9,
        stop_signal := false, cancelledTask := false } :=
  (stop_amended busyStats9 false "7" true).1 "9" rfl (by decide) (by decide)

/-! ## Claim C1 -/

/-- Claim C1 counterexample: with a task running and owned by admin `"7"`,
that same admin's auto-mode button press is *not* rejected: the handler
proceeds to start another scrape task (via `execute_auto_search`) and
clears the stop flag of the running task — so the claim's "distinct reply
and unchanged state for the owner" fails for the auto-mode entry point. -/
theorem auto_mode_self_start_not_rejected :
    cb_handler_auto busyStats true "7" = (AutoReply.proceeds, false) := by decide

/-- Claim C1 (amended): while a task is active (status neither `"Idle"` nor
containing `"Stopped"`), a *text-message* start is always rejected — with
the busy reply for a non-owner and the distinct self-duplication reply for
the owner — and the rejection paths of both handlers perform no writes; the
*auto-mode* button, however, rejects only a requester different from the
recorded owner: the owner's own press proceeds (starting a second task) and
resets the stop flag to `False`. -/
theorem start_requests_amended (st : SessionStats) (stop0 : Bool) (uid : String) :
    (st.status ≠ "Idle" → containsSub "Stopped".data st.status.data = false →
      pyNeqStr st.active_by_id uid = true →
      message_handler st uid = StartReply.busyOther ∧
      cb_handler_auto st stop0 uid = (AutoReply.busyOther, stop0)) ∧
    (st.status ≠ "Idle" → containsSub "Stopped".data st.status.data = false →
      pyNeqStr st.active_by_id uid = false →
      message_handler st uid = StartReply.busySelf) ∧
    (st.status ≠ "Idle" → pyNeqStr st.active_by_id uid = false →
      cb_handler_auto st stop0 uid = (AutoReply.proceeds, false)) := by
  refine ⟨?_, ?_, ?_⟩
  · intro hb hstop hneq
    constructor
    · simp [message_handler, beq_eq_false_iff_ne.mpr hb, hstop, hneq]
    · simp [cb_handler_auto, beq_eq_false_iff_ne.mpr hb, hneq]
  · intro hb hstop hneq
    simp [message_handler, beq_eq_false_iff_ne.mpr hb, hstop, hneq]
  · intro hb hneq
    simp [cb_handler_auto, beq_eq_false_iff_ne.mpr hb, hneq]

/-- Witness for the amended C1 theorem: a non-owner start while admin `"9"`
is running is rejected on both entry points, leaving the stop flag
untouched. -/
theorem start_requests_amended_witness :
    message_handler busyStats9 "7" = StartReply.busyOther ∧
    cb_handler_auto busyStats9 false "7" = (AutoReply.busyOther, false) :=
  (start_requests_amended busyStats9 false "7").1 (by decide) (by decide)
    (by decide)

/-! ## Claim C3 -/

/-- Claim C3 counterexample: the `except` branch of `scrape_task` resets
`status` and `active_by_id` but leaves `active_by_name` set, and an
exception raised before the `try` block (the unguarded status-message edit
on line 154) leaves the full busy state in place — so "status becomes Idle
and both fields cleared on every exit path" fails. -/
theorem crash_exit_keeps_active_name :
    (scrape_task_final idleStats "7" "Alice" "x" ExitPath.errInLoop).active_by_name
      = some "Alice" ∧
    (scrape_task_final idleStats "7" "Alice" "x" ExitPath.errBeforeLoop).status
      = "Running: x" := by decide

/-- Claim C3 (amended): only the normal exit of the crawl loop (keyword
exhaustion or flag-based cancellation) fully resets the busy state; an
exception caught inside the `try` resets `status` and `active_by_id` but
retains `active_by_name`; an exception before the `try` block or a forced
task cancellation leaves the whole busy state as `scrape_task` set it on
entry. -/
theorem busy_reset_amended (st : SessionStats) (uid name kw : String) :
    scrape_task_final st uid name kw ExitPath.normal =
      { st with status := "Idle", active_by_id := none, active_by_name := none } ∧
    (scrape_task_final st uid name kw ExitPath.errInLoop).status = "Idle" ∧
    (scrape_task_final st uid name kw ExitPath.errInLoop).active_by_id = none ∧
    (scrape_task_final st uid name kw ExitPath.errInLoop).active_by_name = some name ∧
    scrape_task_final st uid name kw ExitPath.errBeforeLoop =
      scrape_task_begin st uid name kw ∧
    scrape_task_final st uid name kw ExitPath.forceCancelled =
      scrape_task_begin st uid name kw :=
  ⟨rfl, rfl, rfl, rfl, rfl, rfl⟩

/-! ## Claim C4 -/

theorem parseCSVKeywords_len (res : String) :
    (parseCSVKeywords res).length ≤ 50 := by
  unfold parseCSVKeywords
  rw [List.length_map, List.length_take]
  exact Nat.min_le_left _ _

theorem groqLoop_len (attempt : String → Option String) (kw : String)
    (keys : List String) : ((groqLoop attempt kw keys).2).length ≤ 50 := by
  induction keys with
  | nil => simp [groqLoop]
  | cons k rest ih =>
    cases h : attempt k with
    | some res => simpa [groqLoop, h] using parseCSVKeywords_len res
    | none => simpa [groqLoop, h] using ih

theorem groqLoop_allfail (attempt : String → Option String) (kw : String)
    (keys : List String) (h : ∀ k ∈ keys, attempt k = none) :
    (groqLoop attempt kw keys).2 = [kw] := by
  induction keys with
  | nil => rfl
  | cons k rest ih =>
    have hk : attempt k = none := h k (List.mem_cons_self k rest)
    simp only [groqLoop, hk]
    exact ih (fun k' hk' => h k' (List.mem_cons_of_mem k hk'))

/-- Claim C4 counterexample: a successful provider response `"a, a"` for
seed `"b"` is returned as `["a", "a"]` — the seed term is absent from the
result and duplicates are not removed, refuting both the always-contains-
the-seed and the no-duplicates parts of the claim. -/
theorem expansion_misses_seed_and_dups :
    get_expanded_keywords ["k1"] dupAttempt "b" = ["a", "a"] ∧
    ¬ ("b" ∈ get_expanded_keywords ["k1"] dupAttempt "b") ∧
    ¬ (get_expanded_keywords ["k1"] dupAttempt "b").Nodup := by decide

/-- Claim C4 (amended): the expansion result never exceeds 50 terms; when
no key is configured or every attempt fails it is exactly the singleton
`[seed]` with no error; and every term parsed out of a *successful*
provider response is non-empty and trimmed (no leading or trailing
whitespace).  The seed is not guaranteed to be a member of a successful
parse, and duplicates are not removed. -/
theorem expansion_amended (keys : List String) (attempt : String → Option String)
    (kw : String) (res : String) :
    (get_expanded_keywords keys attempt kw).length ≤ 50 ∧
    ((∀ k ∈ keys, attempt k = none) → get_expanded_keywords keys attempt kw = [kw]) ∧
    (∀ t ∈ parseCSVKeywords res, t ≠ "" ∧
      (∀ h, t.data.head? = some h → pySpace h = false) ∧
      (∀ h, t.data.getLast? = some h → pySpace h = false)) := by
  refine ⟨?_, ?_, ?_⟩
  · unfold get_expanded_keywords
    by_cases hk : keys = []
    · simp [hk]
    · rw [if_neg hk]
      exact groqLoop_len attempt kw keys
  · intro hall
    unfold get_expanded_keywords
    by_cases hk : keys = []
    · simp [hk]
    · rw [if_neg hk]
      exact groqLoop_allfail attempt kw keys hall
  · intro t ht
    unfold parseCSVKeywords at ht
    obtain ⟨u, hu, rfl⟩ := List.mem_map.mp ht
    have hu' := List.mem_of_mem_take hu
    obtain ⟨humem, hne⟩ := List.mem_filter.mp hu'
    obtain ⟨v, _, rfl⟩ := List.mem_map.mp humem
    refine ⟨?_, fun h hh => pyStrip_head_not_space v h hh,
      fun h hh => pyStrip_last_not_space v h hh⟩
    intro heq
    have hd : pyStrip v = [] := congrArg String.data heq
    rw [hd] at hne
    exact absurd hne (by decide)

/-- Witness for the amended C4 theorem: with a single all-failing key the
expansion degrades to exactly the singleton seed, with no error. -/
theorem expansion_amended_witness :
    get_expanded_keywords ["k1"] noAttempt "seed" = ["seed"] :=
  (expansion_amended ["k1"] noAttempt "seed" "").2.1 (fun _ _ => rfl)

/-! ## Claim C2 -/

theorem processItem_fetches (env : CrawlEnv) (kw c : String) (r : SearchItem)
    (st : CrawlSt) :
    (processItem env kw c r st).fetches = st.fetches ++ [(st.reads, r.appId)] := by
  unfold processItem
  cases env.details r.appId c with
  | none => rfl
  | some app =>
    dsimp only
    split
    · rfl
    · split
      · rfl
      · rfl

theorem processItem_guard (sig : Nat → Bool) (env : CrawlEnv) (kw c : String)
    (r : SearchItem) (st : CrawlSt) (hs : sig st.reads = false)
    (h : FetchGuard sig st) : FetchGuard sig (processItem env kw c r st) := by
  intro p hp
  rw [processItem_fetches] at hp
  rcases List.mem_append.mp hp with h1 | h2
  · exact h p h1
  · simp only [List.mem_singleton] at h2
    subst h2
    exact hs

theorem procItems_guard (sig : Nat → Bool) (env : CrawlEnv) (kw c : String)
    (items : List SearchItem) :
    ∀ st : CrawlSt, FetchGuard sig st →
      FetchGuard sig (procItems sig env kw c items st) := by
  induction items with
  | nil => intro st h; exact h
  | cons r rest ih =>
    intro st h
    by_cases hs : sig st.reads = true
    · unfold procItems
      rw [if_pos hs]
      exact h
    · have hs' : sig st.reads = false := eq_false_of_ne_true hs
      unfold procItems
      rw [if_neg hs]
      exact ih _ (processItem_guard sig env kw c r st hs' h)

theorem procCountries_guard (sig : Nat → Bool) (env : CrawlEnv) (kw : String)
    (cs : List String) :
    ∀ st : CrawlSt, FetchGuard sig st →
      FetchGuard sig (procCountries sig env kw cs st) := by
  induction cs with
  | nil => intro st h; exact h
  | cons c rest ih =>
    intro st h
    by_cases hs : sig st.reads = true
    · unfold procCountries
      rw [if_pos hs]
      exact h
    · unfold procCountries
      rw [if_neg hs]
      cases hsr : env.search kw c with
      | none => exact ih _ h
      | some results =>
        dsimp only
        by_cases hres : results = []
        · rw [if_pos hres]
          exact ih _ h
        · rw [if_neg hres]
          exact ih _ (procItems_guard sig env kw c results _ h)

theorem procKeywords_guard (sig : Nat → Bool) (env : CrawlEnv)
    (kws : List String) :
    ∀ st : CrawlSt, FetchGuard sig st →
      FetchGuard sig (procKeywords sig env kws st) := by
  induction kws with
  | nil => intro st h; exact h
  | cons kw rest ih =>
    intro st h
    by_cases hs : sig st.reads = true
    · unfold procKeywords
      rw [if_pos hs]
      exact h
    · unfold procKeywords
      rw [if_neg hs]
      exact ih _ (procCountries_guard sig env kw countries _ h)

/-- Claim C2: the crawl reads the stop flag at its three checkpoints (top
of the keyword loop, top of the country loop, and per item immediately
before its detail fetch — these are exactly the `sig` reads of the
embedding, which returns the accumulated batch on every path and never
writes the flag).  Every detail fetch actually issued was guarded by a read
that returned `False`, and when the flag is monotone (never cleared within
the run) every fetch strictly precedes any read index at which the flag is
set — i.e. once the flag is set, no further item is processed. -/
theorem cancellation_checkpoints_guard (sig : Nat → Bool) (env : CrawlEnv)
    (kws : List String) (m : Nat) (p : Nat × String)
    (hmono : ∀ i j, i ≤ j → sig i = true → sig j = true)
    (hm : sig m = true)
    (hp : p ∈ (scrape_run sig env kws).fetches) :
    sig p.1 = false ∧ p.1 < m := by
  have hg : sig p.1 = false :=
    procKeywords_guard sig env kws _ (fun q hq => absurd hq (List.not_mem_nil q)) p hp
  refine ⟨hg, ?_⟩
  by_contra hlt
  push_neg at hlt
  have := hmono m p.1 hlt hm
  rw [hg] at this
  exact Bool.false_ne_true this

/-- Witness for C2: in a concrete run whose stop flag becomes set at the
third checkpoint read, the one fetch issued was guarded by read index `2`,
strictly before the flag was set. -/
theorem cancellation_checkpoints_guard_witness :
    wSig 2 = false ∧ 2 < 3 :=
  cancellation_checkpoints_guard wSig wEnv ["k"] 3 (2, "a")
    (by intro i j hij hi; simp only [wSig, decide_eq_true_eq] at hi ⊢; omega)
    (by decide) (by decide)

/-! ## Claim C8 -/

/-- Claim C8 counterexample: with every `(keyword, country)` search
returning the same app `app1` and one keyword, the run issues five detail
fetches for `app1` — one per country — because no in-memory seen-set
exists; "at most one detail fetch per distinct item identifier per run" is
false. -/
theorem duplicate_item_fetched_per_region :
    (((scrape_run sigOff dupEnv ["k"]).fetches.filter
        (fun q => q.2 == "app1")).length = 5) ∧
    ¬ (((scrape_run sigOff dupEnv ["k"]).fetches.filter
        (fun q => q.2 == "app1")).length ≤ 1) := by decide

theorem processItem_leads (env : CrawlEnv) (kw c : String) (r : SearchItem)
    (st : CrawlSt) :
    ((processItem env kw c r st).leads = st.leads ∧
      (processItem env kw c r st).written = st.written) ∨
    (∃ app : AppDetail,
      (processItem env kw c r st).leads =
        st.leads ++ [mkLead kw c r app (normEmail app)] ∧
      (processItem env kw c r st).written =
        st.written ++ [safe_key (normEmail app)] ∧
      strListHas st.written (safe_key (normEmail app)) = false) := by
  unfold processItem
  cases henv : env.details r.appId c with
  | none => exact Or.inl ⟨rfl, rfl⟩
  | some app =>
    dsimp only
    by_cases hacc : accept_item env.mx app = false
    · rw [if_pos hacc]
      exact Or.inl ⟨rfl, rfl⟩
    · rw [if_neg hacc]
      by_cases hdup : storeHas env
          { st with
            reads := st.reads + 1,
            fetches := st.fetches ++ [(st.reads, r.appId)] }
          (safe_key (normEmail app)) = true
      · rw [if_pos hdup]
        exact Or.inl ⟨rfl, rfl⟩
      · rw [if_neg hdup]
        refine Or.inr ⟨app, rfl, rfl, ?_⟩
        have hdup' := eq_false_of_ne_true hdup
        unfold storeHas at hdup'
        exact (Bool.or_eq_false_iff.mp hdup').2

theorem processItem_inv (env : CrawlEnv) (kw c : String) (r : SearchItem)
    (st : CrawlSt) (h : LeadKeysInv st) : LeadKeysInv (processItem env kw c r st) := by
  rcases processItem_leads env kw c r st with ⟨hl, hw⟩ | ⟨app, hl, hw, hs⟩
  · constructor
    · rw [hl]; exact h.1
    · intro l hm
      rw [hw]
      exact h.2 l (hl ▸ hm)
  · constructor
    · rw [hl]
      rw [List.map_append, List.nodup_append]
      refine ⟨h.1, List.nodup_singleton _, ?_⟩
      intro k hk hk'
      simp only [List.map_cons, List.map_nil, List.mem_singleton] at hk'
      obtain ⟨l, hlm, hleq⟩ := List.mem_map.mp hk
      have := h.2 l hlm
      rw [hleq, hk'] at this
      simp only [mkLead] at this
      rw [this] at hs
      exact Bool.noConfusion hs
    · intro l hm
      rw [hl] at hm
      rw [hw, strListHas_append]
      rcases List.mem_append.mp hm with h1 | h2
      · rw [h.2 l h1]
        rfl
      · simp only [List.mem_singleton] at h2
        subst h2
        simp [mkLead]

theorem procItems_inv (sig : Nat → Bool) (env : CrawlEnv) (kw c : String)
    (items : List SearchItem) :
    ∀ st : CrawlSt, LeadKeysInv st →
      LeadKeysInv (procItems sig env kw c items st) := by
  induction items with
  | nil => intro st h; exact h
  | cons r rest ih =>
    intro st h
    by_cases hs : sig st.reads = true
    · unfold procItems
      rw [if_pos hs]
      exact h
    · unfold procItems
      rw [if_neg hs]
      exact ih _ (processItem_inv env kw c r st h)

theorem procCountries_inv (sig : Nat → Bool) (env : CrawlEnv) (kw : String)
    (cs : List String) :
    ∀ st : CrawlSt, LeadKeysInv st →
      LeadKeysInv (procCountries sig env kw cs st) := by
  induction cs with
  | nil => intro st h; exact h
  | cons c rest ih =>
    intro st h
    by_cases hs : sig st.reads = true
    · unfold procCountries
      rw [if_pos hs]
      exact h
    · unfold procCountries
      rw [if_neg hs]
      cases hsr : env.search kw c with
      | none => exact ih _ h
      | some results =>
        dsimp only
        by_cases hres : results = []
        · rw [if_pos hres]
          exact ih _ h
        · rw [if_neg hres]
          exact ih _ (procItems_inv sig env kw c results _ h)

theorem procKeywords_inv (sig : Nat → Bool) (env : CrawlEnv)
    (kws : List String) :
    ∀ st : CrawlSt, LeadKeysInv st →
      LeadKeysInv (procKeywords sig env kws st) := by
  induction kws with
  | nil => intro st h; exact h
  | cons kw rest ih =>
    intro st h
    by_cases hs : sig st.reads = true
    · unfold procKeywords
      rw [if_pos hs]
      exact h
    · unfold procKeywords
      rw [if_neg hs]
      exact ih _ (procCountries_inv sig env kw countries _ h)

/-- Claim C8 (amended): the run keeps no in-memory set of seen item
identifiers — an item returned by several `(term, region)` enumerations has
its detail fetched once per occurrence (see the counterexample) — but the
persistent-store check on the email-derived dedup key does bound output:
within one run the dedup keys of the emitted leads are pairwise
distinct. -/
theorem run_leads_dedup_by_store_key (sig : Nat → Bool) (env : CrawlEnv)
    (kws : List String) :
    ((scrape_run sig env kws).leads.map (fun l => safe_key l.email)).Nodup := by
  have h0 : LeadKeysInv
      { reads := 0, leads := [], written := [], fetches := [], total_leads := 0 } :=
    ⟨by simp, by simp⟩
  exact (procKeywords_inv sig env kws _ h0).1

end EmailPro
